import Mathlib

/-!
Shallow embedding of the Thunderbolt firmware parser
(src/plugins/thunderbolt/fu-thunderbolt-firmware.c) and proofs about it.

The C parser decodes a raw controller-flash image into a descriptor:
section offsets (Digital, Drom, ArcParams, DramUcode), hardware identity
(family / generation / ports, device, vendor and model identifiers) and
derived flags (is_host, is_native, has_pd, flash_size).  Every byte access
goes through a single bounds-checked read primitive.  All machine integers
are modelled as Nat with explicit reduction modulo 2^16 / 2^32 exactly
where the C code stores into guint16 / guint32 variables.
-/

namespace Thunderbolt

/-- Error kinds raised by the parse (the FWUPD error codes used in the C file). -/
inductive Err where
  | outOfBounds
  | invalidFormat
  | missingSections
  | incompleteSections
  | unsupportedController
deriving DecidableEq, Repr

/-- Controller silicon family (FuThunderboltFamily). -/
inductive Family where
  | unknown
  | fr
  | wr
  | ar
  | ar_c
  | tr
  | bb
deriving DecidableEq, Repr

/-- An immutable byte image: a length and a byte function (bytes are taken mod 256). -/
structure Image where
  size : Nat
  byte : Nat → Nat

/-- 2^16, the modulus of guint16 arithmetic. -/
def U16 : Nat := 65536

/-- 2^32, the modulus of guint32 arithmetic. -/
def U32 : Nat := 4294967296

/-- Little-endian value of w bytes of the image starting at absolute offset start. -/
def leBytes (img : Image) (start : Nat) : Nat → Nat
  | 0 => 0
  | w + 1 => img.byte start % 256 + 256 * leBytes img (start + 1) w

/-- The firmware descriptor: the fields of struct _FuThunderboltFirmware.
The four section offsets sections[_SECTION_*] are the first four fields;
offset 0 means unresolved.  All fields start at their C zero defaults. -/
structure Desc where
  digital : Nat := 0
  drom : Nat := 0
  arcParams : Nat := 0
  dramUcode : Nat := 0
  family : Family := .unknown
  is_host : Bool := false
  is_native : Bool := false
  has_pd : Bool := false
  device_id : Nat := 0
  vendor_id : Nat := 0
  model_id : Nat := 0
  gen : Nat := 0
  ports : Nat := 0
  flash_size : Nat := 0
deriving DecidableEq, Repr

/-- fu_thunderbolt_firmware_valid_farb_pointer: a FARB pointer is valid iff it is
neither 0 nor 0xFFFFFF. -/
def valid_farb_pointer (p : Nat) : Bool :=
  p != 0 && p != 0xFFFFFF

/-- fu_thunderbolt_firmware_valid_pd_pointer: a PD pointer is valid iff it is
neither 0 nor 0xFFFFFFFF. -/
def valid_pd_pointer (p : Nat) : Bool :=
  p != 0 && p != 0xFFFFFFFF

/-- fu_thunderbolt_firmware_read_location: the single bounds-checked read
primitive.  The absolute start is computed as guint32
(location_start = sections[section] + offset), i.e. modulo 2^32; the copy
succeeds iff start + len fits inside the image (fu_memcpy_safe).
Modelled from the spec: fu_memcpy_safe itself lives outside this excerpt;
per the spec it is the bounds-checked copy that fails iff the source range
exceeds the buffer.  Returns the little-endian value of the bytes read
(the callers read_uint8/16/32 and the FARB reader all decode little-endian). -/
def read_location (img : Image) (sectionOffset offset w : Nat) : Except Err Nat :=
  if (sectionOffset + offset) % U32 + w ≤ img.size
  then .ok (leBytes img ((sectionOffset + offset) % U32) w)
  else .error .outOfBounds

/-- fu_thunderbolt_firmware_read_farb_pointer: 24-bit read at absolute 0x0;
if valid it is the Digital offset; otherwise 24-bit read at absolute 0x1000,
which must be valid (same validity test), else InvalidFormat. -/
def read_farb_pointer (img : Image) : Except Err Nat :=
  match read_location img 0 0x0 3 with
  | .error e => .error e
  | .ok v =>
    if valid_farb_pointer v then .ok v
    else
      match read_location img 0 0x1000 3 with
      | .error e => .error e
      | .ok v2 =>
        if valid_farb_pointer v2 then .ok v2
        else .error .invalidFormat

/-- fu_thunderbolt_firmware_read_ucode_section_len: 16-bit read at
Digital+offset, then value*4+2 computed in the guint16 it is stored in. -/
def read_ucode_section_len (img : Image) (digital offset : Nat) : Except Err Nat :=
  match read_location img digital offset 2 with
  | .error e => .error e
  | .ok v => .ok ((v * 4 + 2) % U16)

/-- The bit values scanned by the DRAM chain walk:
for (guint8 i = 1; i < DRAM_FLAG; i <<= 1). -/
def dram_flags : List Nat := [1, 2, 4, 8, 16, 32]

/-- The DRAM chain walk loop of fu_thunderbolt_firmware_read_sections:
for each set bit, read the section length at the running offset and advance
the running guint32 offset by it. -/
def ucode_walk (img : Image) (digital avail : Nat) : List Nat → Nat → Except Err Nat
  | [], offset => .ok offset
  | b :: bs, offset =>
    if avail &&& b ≠ 0 then
      match read_ucode_section_len img digital offset with
      | .error e => .error e
      | .ok len => ucode_walk img digital avail bs ((offset + len) % U32)
    else ucode_walk img digital avail bs offset

/-- fu_thunderbolt_firmware_read_sections: Drom/ArcParams resolution when
gen >= 3 or gen == 0, then the DramUcode chain walk when is_host and gen > 2. -/
def read_sections (img : Image) (d : Desc) : Except Err Desc :=
  match (if 3 ≤ d.gen ∨ d.gen = 0 then
      match read_location img d.digital 0x10e 4 with
      | .error e => .error e
      | .ok v =>
        match read_location img d.digital 0x75 4 with
        | .error e => .error e
        | .ok w =>
          .ok { d with drom := (v + d.digital) % U32,
                       arcParams := (w + d.digital) % U32 }
    else .ok d : Except Err Desc) with
  | .error e => .error e
  | .ok d1 =>
    if d1.is_host = true ∧ 2 < d1.gen then
      match read_location img d1.digital 0x2 1 with
      | .error e => .error e
      | .ok avail =>
        match read_location img d1.digital 0x3 2 with
        | .error e => .error e
        | .ok start =>
          if avail &&& 0x40 = 0 then .error .missingSections
          else
            match ucode_walk img d1.digital avail dram_flags start with
            | .error e => .error e
            | .ok offset => .ok { d1 with dramUcode := (offset + d1.digital) % U32 }
    else .ok d1

/-- fu_thunderbolt_firmware_missing_needed_drom. -/
def missing_needed_drom (d : Desc) : Bool :=
  if d.drom ≠ 0 then false
  else if d.is_host = true ∧ d.gen < 3 then false
  else true

/-- One row of the static hardware table. -/
structure HwInfo where
  id : Nat
  gen : Nat
  family : Family
  ports : Nat
deriving DecidableEq, Repr

/-- hw_info_arr: the static hardware table from fu_thunderbolt_firmware_parse
(without the zero sentinel row that only terminates the C loop). -/
def hw_info_arr : List HwInfo :=
  [⟨0x156D, 2, .fr, 2⟩,
   ⟨0x156B, 2, .fr, 1⟩,
   ⟨0x157E, 2, .wr, 1⟩,
   ⟨0x1578, 3, .ar, 2⟩,
   ⟨0x1576, 3, .ar, 1⟩,
   ⟨0x15C0, 3, .ar, 1⟩,
   ⟨0x15D3, 3, .ar_c, 2⟩,
   ⟨0x15DA, 3, .ar_c, 1⟩,
   ⟨0x15E7, 3, .tr, 1⟩,
   ⟨0x15EA, 3, .tr, 2⟩,
   ⟨0x15EF, 3, .tr, 2⟩,
   ⟨0x15EE, 3, .bb, 0⟩]

/-- The linear first-match lookup over hw_info_arr done in
fu_thunderbolt_firmware_parse (the loop stops at the id == 0 sentinel, so a
device id of 0 never matches). -/
def hw_lookup (devid : Nat) : Option HwInfo :=
  hw_info_arr.find? (fun h => h.id == devid)

/-- fu_thunderbolt_firmware_parse.  The native-flag offset FU_TBT_OFFSET_NATIVE
is a named constant defined outside this excerpt; modelled from the spec as an
explicit parameter n (a fixed format-defined byte position read against the raw
image before Digital is resolved). -/
def parse (n : Nat) (img : Image) : Except Err Desc :=
  let d0 : Desc := {}
  match read_location img 0 n 1 with
  | .error e => .error e
  | .ok t =>
    let d1 := { d0 with is_native := t &&& 0x20 != 0 }
    match read_farb_pointer img with
    | .error e => .error e
    | .ok farb =>
      let d2 := { d1 with digital := farb }
      if img.size = 0x80 then .ok d2
      else
        match read_location img d2.digital 0x10 1 with
        | .error e => .error e
        | .ok t2 =>
          let d3 := { d2 with is_host := t2 &&& 2 != 0 }
          match read_location img d3.digital 0x5 2 with
          | .error e => .error e
          | .ok devid =>
            let d4 := { d3 with device_id := devid }
            let d5 := match hw_lookup devid with
              | some info => { d4 with family := info.family, gen := info.gen,
                                       ports := info.ports }
              | none => d4
            if d5.ports = 0 ∧ d5.is_host = true then .error .unsupportedController
            else
              match read_sections img d5 with
              | .error e => .error e
              | .ok d6 =>
                if missing_needed_drom d6 then .error .incompleteSections
                else
                  match (if d6.drom ≠ 0 then
                      match read_location img d6.drom 0x10 2 with
                      | .error e => .error e
                      | .ok v =>
                        match read_location img d6.drom 0x12 2 with
                        | .error e => .error e
                        | .ok m => .ok { d6 with vendor_id := v, model_id := m }
                    else .ok d6 : Except Err Desc) with
                  | .error e => .error e
                  | .ok d7 =>
                    match (if d7.arcParams ≠ 0 then
                        match read_location img d7.arcParams 0x10C 4 with
                        | .error e => .error e
                        | .ok p => .ok { d7 with has_pd := valid_pd_pointer p }
                      else .ok d7 : Except Err Desc) with
                    | .error e => .error e
                    | .ok d8 =>
                      if d8.is_host = true ∧
                         (d8.family = .ar ∨ d8.family = .ar_c ∨ d8.family = .tr) then
                        match read_location img d8.digital 0x45 1 with
                        | .error e => .error e
                        | .ok t3 => .ok { d8 with flash_size := t3 &&& 0x07 }
                      else .ok d8

/-- Decidable equality for Except results, so concrete runs can be checked by decide. -/
instance instDecEqExcept {ε α : Type} [DecidableEq ε] [DecidableEq α] :
    DecidableEq (Except ε α) := fun a b =>
  match a, b with
  | .error e, .error f =>
    match decEq e f with
    | .isTrue h => .isTrue (h ▸ rfl)
    | .isFalse h => .isFalse (fun c => h (Except.error.inj c))
  | .ok x, .ok y =>
    match decEq x y with
    | .isTrue h => .isTrue (h ▸ rfl)
    | .isFalse h => .isFalse (fun c => h (Except.ok.inj c))
  | .error _, .ok _ => .isFalse (fun c => Except.noConfusion c)
  | .ok _, .error _ => .isFalse (fun c => Except.noConfusion c)

/-- The bootstrap block of fu_thunderbolt_firmware_parse: native-flag read at a
fixed raw-image position, then FARB resolution of the Digital offset. -/
def stage_bootstrap (n : Nat) (img : Image) : Except Err Desc :=
  match read_location img 0 n 1 with
  | .error e => .error e
  | .ok t =>
    match read_farb_pointer img with
    | .error e => .error e
    | .ok farb => .ok { is_native := t &&& 0x20 != 0, digital := farb }

/-- The identity block of fu_thunderbolt_firmware_parse: host flag, device id,
hardware-table lookup and the unknown-controller check. -/
def stage_identity (img : Image) (d : Desc) : Except Err Desc :=
  match read_location img d.digital 0x10 1 with
  | .error e => .error e
  | .ok t2 =>
    let d3 := { d with is_host := t2 &&& 2 != 0 }
    match read_location img d3.digital 0x5 2 with
    | .error e => .error e
    | .ok devid =>
      let d4 := { d3 with device_id := devid }
      let d5 := match hw_lookup devid with
        | some info => { d4 with family := info.family, gen := info.gen,
                                 ports := info.ports }
        | none => d4
      if d5.ports = 0 ∧ d5.is_host = true then .error .unsupportedController
      else .ok d5

/-- The section block of fu_thunderbolt_firmware_parse: read_sections followed
by the required-Drom check. -/
def stage_sections (img : Image) (d : Desc) : Except Err Desc :=
  match read_sections img d with
  | .error e => .error e
  | .ok d6 =>
    if missing_needed_drom d6 then .error .incompleteSections
    else .ok d6

/-- The derived-field block of fu_thunderbolt_firmware_parse: vendor/model ids,
PD pointer, flash size. -/
def stage_fields (img : Image) (d : Desc) : Except Err Desc :=
  match (if d.drom ≠ 0 then
      match read_location img d.drom 0x10 2 with
      | .error e => .error e
      | .ok v =>
        match read_location img d.drom 0x12 2 with
        | .error e => .error e
        | .ok m => .ok { d with vendor_id := v, model_id := m }
    else .ok d : Except Err Desc) with
  | .error e => .error e
  | .ok d7 =>
    match (if d7.arcParams ≠ 0 then
        match read_location img d7.arcParams 0x10C 4 with
        | .error e => .error e
        | .ok p => .ok { d7 with has_pd := valid_pd_pointer p }
      else .ok d7 : Except Err Desc) with
    | .error e => .error e
    | .ok d8 =>
      if d8.is_host = true ∧
         (d8.family = .ar ∨ d8.family = .ar_c ∨ d8.family = .tr) then
        match read_location img d8.digital 0x45 1 with
        | .error e => .error e
        | .ok t3 => .ok { d8 with flash_size := t3 &&& 0x07 }
      else .ok d8

/-- The effective ports value the unknown-controller check of
fu_thunderbolt_firmware_parse sees: the matched table entry's ports, or the
incoming (zero-default) ports on a table miss. -/
def ident_ports (d : Desc) (devid : Nat) : Nat :=
  match hw_lookup devid with
  | some info => info.ports
  | none => d.ports

/-- The descriptor update performed by the identity block: host flag, device
id, and on a table hit the family / generation / ports. -/
def ident_update (d : Desc) (t devid : Nat) : Desc :=
  match hw_lookup devid with
  | some info => { d with is_host := (t &&& 2 != 0), device_id := devid,
                          family := info.family, gen := info.gen,
                          ports := info.ports }
  | none => { d with is_host := (t &&& 2 != 0), device_id := devid }

/-- The DRAM chain walk as the specification describes it, with the byte
length (value*4 + 2) truncated to 16 bits (the guint16 it is stored in) and a
mathematical running offset.  Used to restate the chain walk independently of
the implementation; it agrees with ucode_walk (see ucode_walk_eq_spec). -/
def spec_chain_walk (img : Image) (digital avail : Nat) : List Nat → Nat → Except Err Nat
  | [], off => .ok off
  | b :: bs, off =>
    if avail &&& b ≠ 0 then
      match read_location img digital off 2 with
      | .error e => .error e
      | .ok v => spec_chain_walk img digital avail bs (off + (v * 4 + 2) % U16)
    else spec_chain_walk img digital avail bs off

/-- The DRAM chain walk with the byte length computed as value*4 + 2 in
unbounded arithmetic (no 16-bit truncation), exactly as the specification
sentence words the conversion.  This differs from the code: see the C3
counterexample. -/
def claim_chain_walk (img : Image) (digital avail : Nat) : List Nat → Nat → Except Err Nat
  | [], off => .ok off
  | b :: bs, off =>
    if avail &&& b ≠ 0 then
      match read_location img digital off 2 with
      | .error e => .error e
      | .ok v => claim_chain_walk img digital avail bs (off + (v * 4 + 2))
    else claim_chain_walk img digital avail bs off

/-- Image whose primary FARB pointer is 0 and whose fallback FARB pointer
reads as 0xFFFFFF. -/
def imgC1 : Image := ⟨0x1003, fun i => if 0x1000 ≤ i then 0xFF else 0⟩

/-- Image with a valid primary FARB pointer 0x050505. -/
def imgW1 : Image := ⟨3, fun _ => 5⟩

/-- Image whose Drom pointer resolves to 0xFFFFFFF2, so that the vendor-id
read at Drom+0x10 wraps around 2^32 to absolute offset 0x2. -/
def imgC2 : Image :=
  ⟨0x200, fun i =>
    if i = 0 then 0x10
    else if i = 0x11e then 0xE2
    else if i = 0x11f ∨ i = 0x120 ∨ i = 0x121 then 0xFF
    else 0⟩

/-- The descriptor parse produces on imgC2. -/
def descC2 : Desc := { digital := 0x10, drom := 0xFFFFFFF2, arcParams := 0x10,
                       has_pd := true }

/-- Image for the chain walk: available sections 0x41 (bits 0 and 6), ucode
start offset 0x60, and a section length field of 0x4000 at Digital+0x60. -/
def imgC3 : Image :=
  ⟨0x200, fun i =>
    if i = 0x12 then 0x41
    else if i = 0x13 then 0x60
    else if i = 0x71 then 0x40
    else 0⟩

/-- A host generation-3 descriptor state entering read_sections. -/
def dC3in : Desc := { digital := 0x10, family := .ar, is_host := true, gen := 3,
                      ports := 2, device_id := 0x1578 }

/-- The descriptor read_sections produces from dC3in on imgC3. -/
def dC3out : Desc := { digital := 0x10, drom := 0x10, arcParams := 0x10,
                       dramUcode := 0x72, family := .ar, is_host := true, gen := 3,
                       ports := 2, device_id := 0x1578 }

/-- An all-zero image used as a neutral byte source. -/
def imgC4 : Image := ⟨0x200, fun _ => 0⟩

/-- A 128-byte all-zero probe image: its primary FARB pointer is 0 (invalid)
and its fallback pointer lies beyond the image. -/
def imgC5ce : Image := ⟨0x80, fun _ => 0⟩

/-- A 128-byte probe image with a valid primary FARB pointer 1. -/
def imgC5w : Image := ⟨0x80, fun i => if i = 0 then 1 else 0⟩

/-- Image of a host controller with device id 0x15EE (the BB device entry,
which has zero ports). -/
def imgC6 : Image :=
  ⟨0x200, fun i =>
    if i = 0 then 0x10
    else if i = 0x20 then 0x02
    else if i = 0x15 then 0xEE
    else if i = 0x16 then 0x15
    else 0⟩

/-- Image of a non-host controller whose Drom pointer 0xFFFFFFF0 wraps with
Digital 0x10 to a resolved Drom offset of exactly 0 (unresolved). -/
def imgC7 : Image :=
  ⟨0x200, fun i =>
    if i = 0 then 0x10
    else if i = 0x11e then 0xF0
    else if i = 0x11f ∨ i = 0x120 ∨ i = 0x121 then 0xFF
    else 0⟩

/-- The empty image: even the native-flag read is out of bounds. -/
def imgC8 : Image := ⟨0, fun _ => 0⟩

/-- A 128-byte image of 0xFF bytes: its primary FARB pointer is 0xFFFFFF
(invalid) and its fallback pointer lies beyond the image. -/
def imgC10 : Image := ⟨0x80, fun _ => 0xFF⟩

/-!  Shared lemmas about the embedding (used by the claim theorems). -/

/-- Any little-endian read is bounded by 256^w. -/
theorem leBytes_lt (img : Image) : ∀ (w start : Nat), leBytes img start w < 256 ^ w := by
  intro w
  induction w with
  | zero => intro start; simp [leBytes]
  | succ w ih =>
    intro start
    have h1 : img.byte start % 256 < 256 := Nat.mod_lt _ (by omega)
    have h2 := ih (start + 1)
    have h3 : (1 : Nat) ≤ 256 ^ w := Nat.one_le_pow _ _ (by omega)
    simp only [leBytes, pow_succ]
    generalize hx : (256 : Nat) ^ w = x at h2 h3
    generalize leBytes img (start + 1) w = y at h2
    omega

/-- A little-endian read depends only on the bytes inside its range. -/
theorem leBytes_congr (img img' : Image) :
    ∀ w start, (∀ i, start ≤ i → i < start + w → img.byte i = img'.byte i) →
    leBytes img start w = leBytes img' start w := by
  intro w
  induction w with
  | zero => intro start _; simp [leBytes]
  | succ w ih =>
    intro start h
    simp only [leBytes]
    rw [h start (le_refl _) (by omega), ih (start + 1) (fun i h1 h2 => h i (by omega) (by omega))]

/-- The read primitive only ever fails with OutOfBounds. -/
theorem read_location_err {img : Image} {s o w : Nat} {e : Err}
    (h : read_location img s o w = .error e) : e = .outOfBounds := by
  unfold read_location at h
  split at h <;> simp_all

/-- Success characterization of the read primitive. -/
theorem read_location_ok_iff {img : Image} {s o w v : Nat} :
    read_location img s o w = .ok v ↔
      (s + o) % U32 + w ≤ img.size ∧ v = leBytes img ((s + o) % U32) w := by
  unfold read_location
  split <;> simp_all [eq_comm]

/-- Failure characterization of the read primitive. -/
theorem read_location_err_iff {img : Image} {s o w : Nat} :
    read_location img s o w = .error .outOfBounds ↔ img.size < (s + o) % U32 + w := by
  unfold read_location
  split <;> simp_all

/-- The FARB resolver only fails with OutOfBounds or InvalidFormat. -/
theorem read_farb_pointer_err {img : Image} {e : Err}
    (h : read_farb_pointer img = .error e) : e = .outOfBounds ∨ e = .invalidFormat := by
  unfold read_farb_pointer at h
  split at h
  next e0 heq =>
    injection h with h'
    subst h'
    exact Or.inl (read_location_err heq)
  next v heq =>
    split at h
    · exact Except.noConfusion h
    · split at h
      next e0 heq2 =>
        injection h with h'
        subst h'
        exact Or.inl (read_location_err heq2)
      next v2 heq2 =>
        split at h
        · exact Except.noConfusion h
        · injection h with h'
          exact Or.inr h'.symm

/-- The ucode-section-length read only fails with OutOfBounds. -/
theorem read_ucode_section_len_err {img : Image} {dig o : Nat} {e : Err}
    (h : read_ucode_section_len img dig o = .error e) : e = .outOfBounds := by
  unfold read_ucode_section_len at h
  split at h
  next e0 heq =>
    injection h with h'
    subst h'
    exact read_location_err heq
  next v heq => exact Except.noConfusion h

/-- The chain walk only fails with OutOfBounds. -/
theorem ucode_walk_err {img : Image} {dig avail : Nat} :
    ∀ bs off e, ucode_walk img dig avail bs off = .error e → e = .outOfBounds := by
  intro bs
  induction bs with
  | nil => intro off e h; simp [ucode_walk] at h
  | cons b bs ih =>
    intro off e h
    unfold ucode_walk at h
    split at h
    · split at h
      next e0 heq =>
        injection h with h'
        subst h'
        exact read_ucode_section_len_err heq
      next len heq => exact ih _ _ h
    · exact ih _ _ h

/-- read_sections only fails with OutOfBounds or MissingSections. -/
theorem read_sections_err {img : Image} {d : Desc} {e : Err}
    (h : read_sections img d = .error e) : e = .outOfBounds ∨ e = .missingSections := by
  unfold read_sections at h
  split at h
  next e0 heq =>
    injection h with h'
    subst h'
    split at heq
    · split at heq
      next e1 heq1 =>
        injection heq with h2
        subst h2
        exact Or.inl (read_location_err heq1)
      next v heq1 =>
        split at heq
        next e1 heq2 =>
          injection heq with h2
          subst h2
          exact Or.inl (read_location_err heq2)
        next w heq2 => exact Except.noConfusion heq
    · exact Except.noConfusion heq
  next d1 heq =>
    split at h
    · split at h
      next e1 heq1 =>
        injection h with h2
        subst h2
        exact Or.inl (read_location_err heq1)
      next avail heq1 =>
        split at h
        next e1 heq2 =>
          injection h with h2
          subst h2
          exact Or.inl (read_location_err heq2)
        next start heq2 =>
          split at h
          · injection h with h2
            subst h2
            exact Or.inr rfl
          · split at h
            next e1 heq3 =>
              injection h with h2
              subst h2
              exact Or.inl (ucode_walk_err _ _ _ heq3)
            next off heq3 => exact Except.noConfusion h
    · exact Except.noConfusion h

/-- The monolithic parse equals the sequential composition of its four stages;
the first stage to fail determines the overall result. -/
theorem parse_stages (n : Nat) (img : Image) :
    parse n img =
      match stage_bootstrap n img with
      | .error e => .error e
      | .ok d =>
        if img.size = 0x80 then .ok d
        else
          match stage_identity img d with
          | .error e => .error e
          | .ok d' =>
            match stage_sections img d' with
            | .error e => .error e
            | .ok d'' => stage_fields img d'' := by
  unfold parse stage_bootstrap stage_identity stage_sections stage_fields
  cases h1 : read_location img 0 n 1 with
  | error e => simp
  | ok t =>
    simp only []
    cases h2 : read_farb_pointer img with
    | error e => simp
    | ok farb =>
      simp only []
      by_cases hsz : img.size = 0x80
      · simp [hsz]
      · simp only [hsz, if_false]
        cases h3 : read_location img farb 0x10 1 with
        | error e => simp
        | ok t2 =>
          simp only []
          cases h4 : read_location img farb 0x5 2 with
          | error e => simp
          | ok devid =>
            simp only []
            cases h5 : hw_lookup devid with
            | none =>
              simp only []
              by_cases hC : (t2 &&& 2 != 0) = true
              · simp [hC]
              · simp only [hC, true_and, and_true, if_false]
                simp only [Bool.false_eq_true, if_false]
                split
                next e h6 => rfl
                next d6 h6 =>
                  by_cases hm : missing_needed_drom d6 = true
                  · simp [hm]
                  · simp [hm]
            | some info =>
              simp only []
              by_cases hC : info.ports = 0 ∧ (t2 &&& 2 != 0) = true
              · simp [hC]
              · simp only [if_neg hC]
                split
                next e h6 => rfl
                next d6 h6 =>
                  by_cases hm : missing_needed_drom d6 = true
                  · simp [hm]
                  · simp [hm]

/-- The bootstrap stage only fails with OutOfBounds or InvalidFormat. -/
theorem stage_bootstrap_err {n : Nat} {img : Image} {e : Err}
    (h : stage_bootstrap n img = .error e) : e = .outOfBounds ∨ e = .invalidFormat := by
  unfold stage_bootstrap at h
  split at h
  next e0 heq =>
    injection h with h'
    subst h'
    exact Or.inl (read_location_err heq)
  next t heq =>
    split at h
    next e0 heq2 =>
      injection h with h'
      subst h'
      exact read_farb_pointer_err heq2
    next farb heq2 => exact Except.noConfusion h

/-- Success characterization of the bootstrap stage. -/
theorem stage_bootstrap_ok_iff {n : Nat} {img : Image} {d : Desc} :
    stage_bootstrap n img = .ok d ↔
      ∃ t farb, read_location img 0 n 1 = .ok t ∧ read_farb_pointer img = .ok farb ∧
        d = { is_native := t &&& 0x20 != 0, digital := farb } := by
  unfold stage_bootstrap
  constructor
  · intro h
    split at h
    next e0 heq => exact Except.noConfusion h
    next t heq =>
      split at h
      next e0 heq2 => exact Except.noConfusion h
      next farb heq2 =>
        injection h with h'
        exact ⟨t, farb, heq, heq2, h'.symm⟩
  · rintro ⟨t, farb, h1, h2, h3⟩
    rw [h1, h2, h3]

/-- The identity stage only fails with OutOfBounds or UnsupportedController. -/
theorem stage_identity_err {img : Image} {d : Desc} {e : Err}
    (h : stage_identity img d = .error e) :
    e = .outOfBounds ∨ e = .unsupportedController := by
  unfold stage_identity at h
  split at h
  next e0 heq =>
    injection h with h'
    subst h'
    exact Or.inl (read_location_err heq)
  next t heq =>
    simp only [] at h
    split at h
    next e0 heq2 =>
      injection h with h'
      subst h'
      exact Or.inl (read_location_err heq2)
    next devid heq2 =>
      split at h
      · injection h with h'
        exact Or.inr h'.symm
      · exact Except.noConfusion h

/-- The section stage only fails with OutOfBounds, MissingSections or
IncompleteSections. -/
theorem stage_sections_err {img : Image} {d : Desc} {e : Err}
    (h : stage_sections img d = .error e) :
    e = .outOfBounds ∨ e = .missingSections ∨ e = .incompleteSections := by
  unfold stage_sections at h
  split at h
  next e0 heq =>
    injection h with h'
    subst h'
    rcases read_sections_err heq with h | h
    · exact Or.inl h
    · exact Or.inr (Or.inl h)
  next d6 heq =>
    split at h
    · injection h with h'
      exact Or.inr (Or.inr h'.symm)
    · exact Except.noConfusion h

/-- The field stage only fails with OutOfBounds. -/
theorem stage_fields_err {img : Image} {d : Desc} {e : Err}
    (h : stage_fields img d = .error e) : e = .outOfBounds := by
  unfold stage_fields at h
  split at h
  next e0 heq =>
    injection h with h'
    subst h'
    split at heq
    · split at heq
      next e1 heq1 =>
        injection heq with h2
        subst h2
        exact read_location_err heq1
      next v heq1 =>
        split at heq
        next e1 heq2 =>
          injection heq with h2
          subst h2
          exact read_location_err heq2
        next m heq2 => exact Except.noConfusion heq
    · exact Except.noConfusion heq
  next d7 heq =>
    split at h
    next e0 heq2 =>
      injection h with h'
      subst h'
      split at heq2
      · split at heq2
        next e1 heq3 =>
          injection heq2 with h2
          subst h2
          exact read_location_err heq3
        next p heq3 => exact Except.noConfusion heq2
      · exact Except.noConfusion heq2
    next d8 heq2 =>
      split at h
      · split at h
        next e1 heq3 =>
          injection h with h'
          subst h'
          exact read_location_err heq3
        next t3 heq3 => exact Except.noConfusion h
      · exact Except.noConfusion h

/-- If the bootstrap stage fails, parse fails with the same error. -/
theorem parse_bootstrap_error {n : Nat} {img : Image} {e : Err}
    (h : stage_bootstrap n img = .error e) : parse n img = .error e := by
  rw [parse_stages, h]

/-- On a 128-byte image, parse returns the bootstrap descriptor unchanged. -/
theorem parse_probe_eq {n : Nat} {img : Image} {d : Desc}
    (hb : stage_bootstrap n img = .ok d) (hsz : img.size = 0x80) :
    parse n img = .ok d := by
  rw [parse_stages, hb]
  simp [hsz]

/-- On a non-128-byte image, parse continues with the identity, section and
field stages after a successful bootstrap. -/
theorem parse_stages_ne {n : Nat} {img : Image} {d : Desc}
    (hb : stage_bootstrap n img = .ok d) (hsz : img.size ≠ 0x80) :
    parse n img =
      match stage_identity img d with
      | .error e => .error e
      | .ok d1 =>
        match stage_sections img d1 with
        | .error e => .error e
        | .ok d6 => stage_fields img d6 := by
  rw [parse_stages, hb]
  simp [hsz]

/-- The implementation chain walk agrees with the specification walk as long
as the running offset cannot overflow the guint32 it is kept in; with at most
six steps of less than 2^16 bytes each, this always holds in read_sections. -/
theorem ucode_walk_eq_spec (img : Image) (dig avail : Nat) :
    ∀ (bs : List Nat) (off : Nat), off + 65536 * bs.length < U32 →
    ucode_walk img dig avail bs off = spec_chain_walk img dig avail bs off := by
  intro bs
  induction bs with
  | nil => intro off _; rfl
  | cons b bs ih =>
    intro off hoff
    unfold ucode_walk spec_chain_walk
    split
    · unfold read_ucode_section_len
      cases h : read_location img dig off 2 with
      | error e => simp
      | ok v =>
        simp only []
        have hlen : (v * 4 + 2) % U16 < 65536 := Nat.mod_lt _ (by simp [U16])
        have hlist : off + 65536 * bs.length + 65536 ≤ off + 65536 * (b :: bs).length := by
          rw [List.length_cons]
          omega
        have hfit : off + (v * 4 + 2) % U16 < U32 := by omega
        rw [Nat.mod_eq_of_lt hfit]
        exact ih _ (by omega)
    · exact ih _ (by
        have h9 : (65536 : Nat) * bs.length ≤ 65536 * (b :: bs).length := by
          rw [List.length_cons]
          omega
        omega)

/-- Success characterization of the identity stage. -/
theorem stage_identity_ok_iff {img : Image} {d d' : Desc} :
    stage_identity img d = .ok d' ↔
      ∃ t devid, read_location img d.digital 0x10 1 = .ok t ∧
        read_location img d.digital 0x5 2 = .ok devid ∧
        ¬(ident_ports d devid = 0 ∧ (t &&& 2 != 0) = true) ∧
        d' = ident_update d t devid := by
  constructor
  · intro h
    unfold stage_identity at h
    split at h
    next e0 heq => exact Except.noConfusion h
    next t heq =>
      simp only [] at h
      split at h
      next e0 heq2 => exact Except.noConfusion h
      next devid heq2 =>
        cases h5 : hw_lookup devid with
        | none =>
          simp only [h5] at h
          split at h
          next hcond => exact Except.noConfusion h
          next hcond =>
            injection h with h'
            refine ⟨t, devid, heq, heq2, ?_, ?_⟩
            · unfold ident_ports
              rw [h5]
              exact hcond
            · unfold ident_update
              rw [h5]
              exact h'.symm
        | some info =>
          simp only [h5] at h
          split at h
          next hcond => exact Except.noConfusion h
          next hcond =>
            injection h with h'
            refine ⟨t, devid, heq, heq2, ?_, ?_⟩
            · unfold ident_ports
              rw [h5]
              exact hcond
            · unfold ident_update
              rw [h5]
              exact h'.symm
  · rintro ⟨t, devid, h1, h2, h3, h4⟩
    unfold stage_identity
    rw [h1]
    simp only []
    rw [h2]
    simp only []
    unfold ident_ports at h3
    unfold ident_update at h4
    cases h5 : hw_lookup devid with
    | none =>
      rw [h5] at h3 h4
      simp only [h5]
      split
      next hcond => exact absurd hcond h3
      next hcond => exact congrArg Except.ok h4.symm
    | some info =>
      rw [h5] at h3 h4
      simp only [h5]
      split
      next hcond => exact absurd hcond h3
      next hcond => exact congrArg Except.ok h4.symm

/-- UnsupportedController characterization of the identity stage. -/
theorem stage_identity_unsupported_iff {img : Image} {d : Desc} :
    stage_identity img d = .error .unsupportedController ↔
      ∃ t devid, read_location img d.digital 0x10 1 = .ok t ∧
        read_location img d.digital 0x5 2 = .ok devid ∧
        ident_ports d devid = 0 ∧ (t &&& 2 != 0) = true := by
  constructor
  · intro h
    unfold stage_identity at h
    split at h
    next e0 heq =>
      injection h with h'
      exact Err.noConfusion ((read_location_err heq).symm.trans h')
    next t heq =>
      simp only [] at h
      split at h
      next e0 heq2 =>
        injection h with h'
        exact Err.noConfusion ((read_location_err heq2).symm.trans h')
      next devid heq2 =>
        cases h5 : hw_lookup devid with
        | none =>
          simp only [h5] at h
          split at h
          next hcond =>
            refine ⟨t, devid, heq, heq2, ?_, hcond.2⟩
            unfold ident_ports
            rw [h5]
            exact hcond.1
          next hcond => exact Except.noConfusion h
        | some info =>
          simp only [h5] at h
          split at h
          next hcond =>
            refine ⟨t, devid, heq, heq2, ?_, hcond.2⟩
            unfold ident_ports
            rw [h5]
            exact hcond.1
          next hcond => exact Except.noConfusion h
  · rintro ⟨t, devid, h1, h2, h3, h4⟩
    unfold stage_identity
    rw [h1]
    simp only []
    rw [h2]
    simp only []
    unfold ident_ports at h3
    cases h5 : hw_lookup devid with
    | none =>
      rw [h5] at h3
      simp only [h5]
      split
      next hcond => rfl
      next hcond => exact absurd ⟨h3, h4⟩ hcond
    | some info =>
      rw [h5] at h3
      simp only [h5]
      split
      next hcond => rfl
      next hcond => exact absurd ⟨h3, h4⟩ hcond

/-- The identity stage only writes is_host, device_id, family, gen and ports. -/
theorem stage_identity_preserves {img : Image} {d d' : Desc}
    (h : stage_identity img d = .ok d') :
    d'.digital = d.digital ∧ d'.drom = d.drom ∧ d'.arcParams = d.arcParams ∧
    d'.dramUcode = d.dramUcode ∧ d'.is_native = d.is_native ∧ d'.has_pd = d.has_pd ∧
    d'.vendor_id = d.vendor_id ∧ d'.model_id = d.model_id ∧
    d'.flash_size = d.flash_size := by
  obtain ⟨t, devid, h1, h2, h3, h4⟩ := stage_identity_ok_iff.mp h
  subst h4
  unfold ident_update
  cases h5 : hw_lookup devid <;> simp

/-- read_sections only writes the drom, arcParams and dramUcode offsets. -/
theorem read_sections_preserves {img : Image} {d d' : Desc}
    (h : read_sections img d = .ok d') :
    d'.digital = d.digital ∧ d'.family = d.family ∧ d'.is_host = d.is_host ∧
    d'.is_native = d.is_native ∧ d'.has_pd = d.has_pd ∧ d'.device_id = d.device_id ∧
    d'.vendor_id = d.vendor_id ∧ d'.model_id = d.model_id ∧ d'.gen = d.gen ∧
    d'.ports = d.ports ∧ d'.flash_size = d.flash_size := by
  unfold read_sections at h
  split at h
  next e0 heq => exact Except.noConfusion h
  next d1 heq =>
    have hfields : d1.digital = d.digital ∧ d1.family = d.family ∧
        d1.is_host = d.is_host ∧ d1.is_native = d.is_native ∧ d1.has_pd = d.has_pd ∧
        d1.device_id = d.device_id ∧ d1.vendor_id = d.vendor_id ∧
        d1.model_id = d.model_id ∧ d1.gen = d.gen ∧ d1.ports = d.ports ∧
        d1.flash_size = d.flash_size := by
      split at heq
      · split at heq
        next e1 heq1 => exact Except.noConfusion heq
        next v heq1 =>
          split at heq
          next e1 heq2 => exact Except.noConfusion heq
          next w heq2 =>
            injection heq with h2
            subst h2
            simp
      · injection heq with h2
        subst h2
        simp
    split at h
    · split at h
      next e1 heq1 => exact Except.noConfusion h
      next avail heq1 =>
        split at h
        next e1 heq2 => exact Except.noConfusion h
        next start heq2 =>
          split at h
          · exact Except.noConfusion h
          · split at h
            next e1 heq3 => exact Except.noConfusion h
            next off heq3 =>
              injection h with h2
              subst h2
              simpa using hfields
    · injection h with h2
      subst h2
      exact hfields

/-- Success characterization of the section stage. -/
theorem stage_sections_ok_iff {img : Image} {d d' : Desc} :
    stage_sections img d = .ok d' ↔
      read_sections img d = .ok d' ∧ missing_needed_drom d' = false := by
  unfold stage_sections
  constructor
  · intro h
    split at h
    next e0 heq => exact Except.noConfusion h
    next d6 heq =>
      split at h
      · exact Except.noConfusion h
      next hm =>
        injection h with h2
        subst h2
        exact ⟨heq, by simpa using hm⟩
  · rintro ⟨h1, h2⟩
    rw [h1]
    simp [h2]

/-- IncompleteSections characterization of the section stage. -/
theorem stage_sections_incomplete_iff {img : Image} {d : Desc} :
    stage_sections img d = .error .incompleteSections ↔
      ∃ d6, read_sections img d = .ok d6 ∧ missing_needed_drom d6 = true := by
  unfold stage_sections
  constructor
  · intro h
    split at h
    next e0 heq =>
      injection h with h'
      rcases read_sections_err heq with h2 | h2 <;>
        exact Err.noConfusion (h'.symm.trans h2)
    next d6 heq =>
      split at h
      next hm => exact ⟨d6, heq, hm⟩
      next hm => exact Except.noConfusion h
  · rintro ⟨d6, h1, h2⟩
    rw [h1]
    simp [h2]

/-- What the field stage does: it only writes vendor_id, model_id, has_pd and
flash_size, and has_pd is written from the PD pointer at ArcParams+0x10C
exactly when the ArcParams offset is resolved. -/
theorem stage_fields_spec {img : Image} {d d' : Desc}
    (h : stage_fields img d = .ok d') :
    d'.digital = d.digital ∧ d'.drom = d.drom ∧ d'.arcParams = d.arcParams ∧
    d'.dramUcode = d.dramUcode ∧ d'.family = d.family ∧ d'.is_host = d.is_host ∧
    d'.is_native = d.is_native ∧ d'.device_id = d.device_id ∧ d'.gen = d.gen ∧
    d'.ports = d.ports ∧
    (d.arcParams = 0 → d'.has_pd = d.has_pd) ∧
    (d.arcParams ≠ 0 → ∃ p, read_location img d.arcParams 0x10C 4 = .ok p ∧
        d'.has_pd = valid_pd_pointer p) := by
  unfold stage_fields at h
  split at h
  next e0 heq => exact Except.noConfusion h
  next d7 heq =>
    have h7 : d7.digital = d.digital ∧ d7.drom = d.drom ∧
        d7.arcParams = d.arcParams ∧ d7.dramUcode = d.dramUcode ∧
        d7.family = d.family ∧ d7.is_host = d.is_host ∧
        d7.is_native = d.is_native ∧ d7.has_pd = d.has_pd ∧
        d7.device_id = d.device_id ∧ d7.gen = d.gen ∧ d7.ports = d.ports ∧
        d7.flash_size = d.flash_size := by
      split at heq
      · split at heq
        next e1 heq1 => exact Except.noConfusion heq
        next v heq1 =>
          split at heq
          next e1 heq2 => exact Except.noConfusion heq
          next m heq2 =>
            injection heq with h2
            subst h2
            simp
      · injection heq with h2
        subst h2
        simp
    split at h
    next e0 heq2 => exact Except.noConfusion h
    next d8 heq2 =>
      have h8 : d8.digital = d7.digital ∧ d8.drom = d7.drom ∧
          d8.arcParams = d7.arcParams ∧ d8.dramUcode = d7.dramUcode ∧
          d8.family = d7.family ∧ d8.is_host = d7.is_host ∧
          d8.is_native = d7.is_native ∧ d8.device_id = d7.device_id ∧
          d8.gen = d7.gen ∧ d8.ports = d7.ports ∧
          d8.flash_size = d7.flash_size := by
        split at heq2
        · split at heq2
          next e1 heq3 => exact Except.noConfusion heq2
          next p heq3 =>
            injection heq2 with h2
            subst h2
            simp
        · injection heq2 with h2
          subst h2
          simp
      have h8pd : (d.arcParams = 0 → d8.has_pd = d.has_pd) ∧
          (d.arcParams ≠ 0 → ∃ p, read_location img d.arcParams 0x10C 4 = .ok p ∧
              d8.has_pd = valid_pd_pointer p) := by
        rw [← h7.2.2.1]
        split at heq2
        next harc =>
          split at heq2
          next e1 heq3 => exact Except.noConfusion heq2
          next p heq3 =>
            injection heq2 with h2
            subst h2
            exact ⟨fun hz => absurd hz harc, fun _ => ⟨p, heq3, by simp⟩⟩
        next harc =>
          injection heq2 with h2
          subst h2
          refine ⟨fun _ => h7.2.2.2.2.2.2.2.1, fun hnz => absurd ?_ harc⟩
          exact hnz
      split at h
      · split at h
        next e1 heq3 => exact Except.noConfusion h
        next t3 heq3 =>
          injection h with h2
          subst h2
          simp only []
          refine ⟨?_, ?_, ?_, ?_, ?_, ?_, ?_, ?_, ?_, ?_, ?_, ?_⟩ <;>
            simp_all
      · injection h with h2
        subst h2
        refine ⟨?_, ?_, ?_, ?_, ?_, ?_, ?_, ?_, ?_, ?_, ?_, ?_⟩ <;>
          simp_all

/-- Claim C1, counterexample: the claim (and spec) say the fallback FARB value
is used if it is neither 0 nor 0xFFFFFFFF.  On an image whose primary pointer
is 0 and whose fallback reads as 0xFFFFFF (which is neither 0 nor 0xFFFFFFFF),
the code nevertheless rejects with InvalidFormat, because the fallback is
checked with the same 24-bit test as the primary. -/
theorem c1_counterexample :
    read_location imgC1 0 0x0 3 = .ok 0 ∧
    read_location imgC1 0 0x1000 3 = .ok 0xFFFFFF ∧
    (0xFFFFFF : Nat) ≠ 0 ∧ (0xFFFFFF : Nat) ≠ 0xFFFFFFFF ∧
    read_farb_pointer imgC1 = .error .invalidFormat := by decide

/-- Claim C1 (amended): parse reads a 24-bit little-endian value at absolute
offset 0x0; if it is neither 0 nor 0xFFFFFF it becomes the Digital offset;
otherwise it reads a 24-bit value at absolute offset 0x1000 and uses it if it
is neither 0 nor 0xFFFFFF (the same validity test as the primary), else fails
with InvalidFormat.  Any accepted Digital offset is non-zero and comes from
exactly one of the two locations. -/
theorem c1_farb_bootstrap (img : Image) (p : Nat) :
    (read_farb_pointer img = .ok p ↔
      (read_location img 0 0x0 3 = .ok p ∧ valid_farb_pointer p = true) ∨
      (∃ v, read_location img 0 0x0 3 = .ok v ∧ valid_farb_pointer v = false ∧
        read_location img 0 0x1000 3 = .ok p ∧ valid_farb_pointer p = true)) ∧
    (read_farb_pointer img = .ok p → p ≠ 0) ∧
    (∀ v v2, read_location img 0 0x0 3 = .ok v → valid_farb_pointer v = false →
      read_location img 0 0x1000 3 = .ok v2 → valid_farb_pointer v2 = false →
      read_farb_pointer img = .error .invalidFormat) := by
  have hiff : read_farb_pointer img = .ok p ↔
      (read_location img 0 0x0 3 = .ok p ∧ valid_farb_pointer p = true) ∨
      (∃ v, read_location img 0 0x0 3 = .ok v ∧ valid_farb_pointer v = false ∧
        read_location img 0 0x1000 3 = .ok p ∧ valid_farb_pointer p = true) := by
    constructor
    · intro h
      unfold read_farb_pointer at h
      split at h
      next e0 heq => exact Except.noConfusion h
      next v heq =>
        split at h
        next hv =>
          injection h with h'
          subst h'
          exact Or.inl ⟨heq, hv⟩
        next hv =>
          split at h
          next e0 heq2 => exact Except.noConfusion h
          next v2 heq2 =>
            split at h
            next hv2 =>
              injection h with h'
              subst h'
              exact Or.inr ⟨v, heq, by simpa using hv, heq2, hv2⟩
            next hv2 => exact Except.noConfusion h
    · intro h
      unfold read_farb_pointer
      rcases h with ⟨h1, h2⟩ | ⟨v, h1, h2, h3, h4⟩
      · rw [h1]
        simp [h2]
      · rw [h1]
        simp [h2, h3, h4]
  refine ⟨hiff, ?_, ?_⟩
  · intro h
    rcases hiff.mp h with ⟨h1, h2⟩ | ⟨v, h1, h2, h3, h4⟩
    · intro hp0
      subst hp0
      simp [valid_farb_pointer] at h2
    · intro hp0
      subst hp0
      simp [valid_farb_pointer] at h4
  · intro v v2 h1 h2 h3 h4
    unfold read_farb_pointer
    rw [h1]
    simp [h2, h3, h4]

/-- Claim C1, witness: on an image with valid primary FARB pointer 0x050505,
the resolver accepts it and the Digital offset is non-zero. -/
theorem c1_farb_bootstrap_witness :
    read_farb_pointer imgW1 = .ok 0x050505 ∧ (0x050505 : Nat) ≠ 0 :=
  ⟨(c1_farb_bootstrap imgW1 0x050505).1.mpr (Or.inl ⟨by decide, by decide⟩),
   (c1_farb_bootstrap imgW1 0x050505).2.1
     ((c1_farb_bootstrap imgW1 0x050505).1.mpr (Or.inl ⟨by decide, by decide⟩))⟩

/-- Claim C2, counterexample: during parse of imgC2 the vendor-id read has a
mathematical absolute range [0xFFFFFFF2+0x10, 0xFFFFFFF2+0x10+2) far beyond
the 0x200-byte image, yet the read succeeds (at the 32-bit-wrapped offset 0x2)
and the parse completes, instead of failing with OutOfBounds as the claim
requires for every read whose computed absolute range exceeds the length. -/
theorem c2_counterexample :
    parse 0 imgC2 = .ok descC2 ∧
    imgC2.size < descC2.drom + 0x10 + 2 ∧
    read_location imgC2 descC2.drom 0x10 2 = .ok 0 := by decide

/-- Claim C2 (amended): the absolute start of every read performed during
parse is computed in guint32 arithmetic, (section offset + relative offset)
mod 2^32.  A read fails with OutOfBounds iff that wrapped start plus the
width exceeds the image length; an in-bounds read returns the little-endian
value of the bytes in range; and a read never depends on any byte outside its
computed range (in particular never on memory beyond the image). -/
theorem c2_bounded_reads (img : Image) (s o w : Nat) :
    (img.size < (s + o) % U32 + w → read_location img s o w = .error .outOfBounds) ∧
    ((s + o) % U32 + w ≤ img.size →
      read_location img s o w = .ok (leBytes img ((s + o) % U32) w)) ∧
    (∀ img' : Image, img.size = img'.size →
      (∀ i, (s + o) % U32 ≤ i → i < (s + o) % U32 + w → img.byte i = img'.byte i) →
      read_location img s o w = read_location img' s o w) := by
  refine ⟨?_, ?_, ?_⟩
  · intro h
    unfold read_location
    rw [if_neg (by omega)]
  · intro h
    unfold read_location
    rw [if_pos h]
  · intro img' hsz hagree
    unfold read_location
    rw [hsz]
    by_cases hb : (s + o) % U32 + w ≤ img'.size
    · rw [if_pos hb, if_pos hb]
      exact congrArg Except.ok (leBytes_congr img img' w _ hagree)
    · rw [if_neg hb, if_neg hb]

/-- Claim C2, witness: an overlong read fails with OutOfBounds and an
in-bounds read returns the little-endian bytes. -/
theorem c2_bounded_reads_witness :
    read_location imgW1 0 0 8 = .error .outOfBounds ∧
    read_location imgW1 0 0 2 = .ok 0x0505 := by
  constructor
  · exact (c2_bounded_reads imgW1 0 0 8).1 (by decide)
  · have h := (c2_bounded_reads imgW1 0 0 2).2.1 (by decide)
    rw [h]
    decide

/-- Claim C3, counterexample: with a section length field of 0x4000, the code
computes the byte length (0x4000*4 + 2) in a guint16, truncating 0x10002 to 2,
and resolves DramUcode to 0x72; the claim's untruncated value*4 + 2 arithmetic
would predict running offset 0x10062 and DramUcode 0x10072. -/
theorem c3_counterexample :
    read_location imgC3 0x10 0x2 1 = .ok 0x41 ∧
    read_location imgC3 0x10 0x3 2 = .ok 0x60 ∧
    read_sections imgC3 dC3in = .ok dC3out ∧
    claim_chain_walk imgC3 0x10 0x41 dram_flags 0x60 = .ok 0x10062 ∧
    dC3out.dramUcode = 0x72 ∧ (0x72 : Nat) ≠ 0x10062 + 0x10 := by decide

/-- Claim C3 (amended): for a host with generation > 2, read_sections reads
the bitmask at Digital+0x2 and the 16-bit start offset at Digital+0x3; if bit
0x40 is clear it fails with MissingSections; otherwise, for bit values
1,2,4,8,16,32 in ascending order, each set bit reads a 16-bit length at the
running offset and advances it by (value*4 + 2) truncated to 16 bits (the
guint16 the length is computed in); the final DramUcode offset is the running
offset plus the Digital offset (as guint32). -/
theorem c3_dram_chain_walk (img : Image) (d : Desc)
    (hh : d.is_host = true) (hg : 2 < d.gen) :
    (∀ v w avail start,
      read_location img d.digital 0x10e 4 = .ok v →
      read_location img d.digital 0x75 4 = .ok w →
      read_location img d.digital 0x2 1 = .ok avail →
      read_location img d.digital 0x3 2 = .ok start →
      avail &&& 0x40 = 0 → read_sections img d = .error .missingSections) ∧
    (∀ d', read_sections img d = .ok d' →
      ∃ avail start off, read_location img d.digital 0x2 1 = .ok avail ∧
        read_location img d.digital 0x3 2 = .ok start ∧ avail &&& 0x40 ≠ 0 ∧
        spec_chain_walk img d.digital avail dram_flags start = .ok off ∧
        d'.dramUcode = (off + d.digital) % U32) := by
  have hgen : 3 ≤ d.gen ∨ d.gen = 0 := Or.inl (by omega)
  constructor
  · intro v w avail start h1 h2 h3 h4 h5
    unfold read_sections
    rw [if_pos hgen]
    simp only [h1, h2]
    split
    next hcond =>
      simp only [h3, h4]
      rw [if_pos h5]
    next hcond => exact absurd ⟨hh, hg⟩ hcond
  · intro d' hok
    unfold read_sections at hok
    rw [if_pos hgen] at hok
    split at hok
    next e0 heq => exact Except.noConfusion hok
    next d1 heq =>
      have hd1 : d1.digital = d.digital ∧ d1.is_host = d.is_host ∧ d1.gen = d.gen := by
        split at heq
        next e1 heq1 => exact Except.noConfusion heq
        next v heq1 =>
          split at heq
          next e1 heq2 => exact Except.noConfusion heq
          next w heq2 =>
            injection heq with h2
            subst h2
            simp
      have hcond : d1.is_host = true ∧ 2 < d1.gen :=
        ⟨hd1.2.1.trans hh, hd1.2.2.symm ▸ hg⟩
      rw [if_pos hcond] at hok
      split at hok
      next e1 heq1 => exact Except.noConfusion hok
      next avail heq1 =>
        split at hok
        next e1 heq2 => exact Except.noConfusion hok
        next start heq2 =>
          split at hok
          · exact Except.noConfusion hok
          next hflag =>
            split at hok
            next e1 heq3 => exact Except.noConfusion hok
            next off heq3 =>
              injection hok with h2
              subst h2
              have hstart : start < 65536 := by
                rcases read_location_ok_iff.mp heq2 with ⟨_, hst⟩
                rw [hst]
                have := leBytes_lt img ((d1.digital + 0x3) % U32)
                have h256 := leBytes_lt img 2 ((d1.digital + 0x3) % U32)
                calc leBytes img ((d1.digital + 0x3) % U32) 2 < 256 ^ 2 := h256
                  _ = 65536 := by norm_num
              have hwalk := ucode_walk_eq_spec img d1.digital avail dram_flags start
                (by
                  have hlen : dram_flags.length = 6 := by decide
                  rw [hlen]
                  unfold U32
                  omega)
              rw [hwalk] at heq3
              rw [hd1.1] at heq1 heq2 heq3
              refine ⟨avail, start, off, heq1, heq2, hflag, heq3, ?_⟩
              simp [hd1.1]

/-- Claim C3, witness: the amended chain-walk characterization applied to the
concrete read_sections run on imgC3. -/
theorem c3_dram_chain_walk_witness :
    ∃ avail start off,
      read_location imgC3 dC3in.digital 0x2 1 = .ok avail ∧
      read_location imgC3 dC3in.digital 0x3 2 = .ok start ∧ avail &&& 0x40 ≠ 0 ∧
      spec_chain_walk imgC3 dC3in.digital avail dram_flags start = .ok off ∧
      dC3out.dramUcode = (off + dC3in.digital) % U32 :=
  (c3_dram_chain_walk imgC3 dC3in (by decide) (by decide)).2 dC3out (by decide)

/-- Claim C4: when generation >= 3 or generation = 0, read_sections reads a
32-bit value at Digital+0x10E and sets Drom to value + Digital (as guint32),
and a 32-bit value at Digital+0x75 and sets ArcParams to value + Digital;
generation 0 behaves exactly like generation >= 3.  For generation 1 or 2 the
step is skipped entirely and both offsets keep their (zero) values. -/
theorem c4_drom_arc_resolution (img : Image) (d : Desc) :
    ((3 ≤ d.gen ∨ d.gen = 0) → ∀ d', read_sections img d = .ok d' →
      ∃ v w, read_location img d.digital 0x10e 4 = .ok v ∧
        read_location img d.digital 0x75 4 = .ok w ∧
        d'.drom = (v + d.digital) % U32 ∧ d'.arcParams = (w + d.digital) % U32) ∧
    ((d.gen = 1 ∨ d.gen = 2) → read_sections img d = .ok d) := by
  constructor
  · intro hgen d' hok
    unfold read_sections at hok
    rw [if_pos hgen] at hok
    split at hok
    next e0 heq => exact Except.noConfusion hok
    next d1 heq =>
      have hd1 : ∃ v w, read_location img d.digital 0x10e 4 = .ok v ∧
          read_location img d.digital 0x75 4 = .ok w ∧
          d1.drom = (v + d.digital) % U32 ∧ d1.arcParams = (w + d.digital) % U32 := by
        split at heq
        next e1 heq1 => exact Except.noConfusion heq
        next v heq1 =>
          split at heq
          next e1 heq2 => exact Except.noConfusion heq
          next w heq2 =>
            injection heq with h2
            subst h2
            exact ⟨v, w, heq1, heq2, rfl, rfl⟩
      obtain ⟨v, w, h1, h2, h3, h4⟩ := hd1
      refine ⟨v, w, h1, h2, ?_, ?_⟩
      · split at hok
        · split at hok
          next e1 heq1 => exact Except.noConfusion hok
          next avail heq1 =>
            split at hok
            next e1 heq2 => exact Except.noConfusion hok
            next start heq2 =>
              split at hok
              · exact Except.noConfusion hok
              · split at hok
                next e1 heq3 => exact Except.noConfusion hok
                next off heq3 =>
                  injection hok with h5
                  subst h5
                  simpa using h3
        · injection hok with h5
          subst h5
          exact h3
      · split at hok
        · split at hok
          next e1 heq1 => exact Except.noConfusion hok
          next avail heq1 =>
            split at hok
            next e1 heq2 => exact Except.noConfusion hok
            next start heq2 =>
              split at hok
              · exact Except.noConfusion hok
              · split at hok
                next e1 heq3 => exact Except.noConfusion hok
                next off heq3 =>
                  injection hok with h5
                  subst h5
                  simpa using h4
        · injection hok with h5
          subst h5
          exact h4
  · intro hgen
    unfold read_sections
    rw [if_neg (by omega)]
    simp only []
    rw [if_neg (by
      rintro ⟨h1, h2⟩
      omega)]

/-- Claim C4, witness: generation-3 resolution on an all-zero image, and a
generation-1 descriptor passing through read_sections unchanged. -/
theorem c4_drom_arc_witness :
    (∃ v w, read_location imgC4 ({ gen := 3 } : Desc).digital 0x10e 4 = .ok v ∧
      read_location imgC4 ({ gen := 3 } : Desc).digital 0x75 4 = .ok w ∧
      ({ gen := 3 } : Desc).drom = (v + ({ gen := 3 } : Desc).digital) % U32 ∧
      ({ gen := 3 } : Desc).arcParams = (w + ({ gen := 3 } : Desc).digital) % U32) ∧
    read_sections imgC4 { gen := 1 } = .ok { gen := 1 } :=
  ⟨(c4_drom_arc_resolution imgC4 { gen := 3 }).1 (Or.inl (by decide)) { gen := 3 }
      (by decide),
   (c4_drom_arc_resolution imgC4 { gen := 1 }).2 (Or.inl rfl)⟩

/-- Claim C5, counterexample: a 128-byte all-zero image does not parse
successfully: its primary FARB pointer is 0 (invalid) and the fallback read at
0x1000 is beyond the image, so parse fails with OutOfBounds before reaching
the 128-byte short-circuit. -/
theorem c5_counterexample :
    imgC5ce.size = 0x80 ∧ parse 0 imgC5ce = .error .outOfBounds := by decide

/-- Claim C5 (amended): for every 128-byte image whose native-flag position
lies inside the image and whose primary FARB pointer is valid, parse succeeds
and returns a descriptor in which only is_native and the Digital offset are
set; every other field keeps its default value. -/
theorem c5_probe_short_circuit (n : Nat) (img : Image)
    (hsz : img.size = 0x80) (hn : n + 1 ≤ img.size)
    (hv : valid_farb_pointer (leBytes img 0 3) = true) :
    parse n img = .ok { digital := leBytes img 0 3,
                        is_native := (leBytes img n 1 &&& 0x20 != 0) } := by
  have hn32 : (0 + n) % U32 = n := by
    unfold U32
    omega
  have h1 : read_location img 0 n 1 = .ok (leBytes img n 1) := by
    unfold read_location
    rw [hn32, if_pos hn]
  have h03 : (0 + 0) % U32 = 0 := by
    unfold U32
    omega
  have h2 : read_farb_pointer img = .ok (leBytes img 0 3) := by
    unfold read_farb_pointer
    have hr : read_location img 0 0x0 3 = .ok (leBytes img 0 3) := by
      unfold read_location
      rw [h03, if_pos (by omega)]
    rw [hr]
    simp [hv]
  unfold parse
  rw [h1]
  simp only []
  rw [h2]
  simp only []
  rw [if_pos hsz]

/-- Claim C5, witness: a 128-byte image with primary FARB pointer 1 parses to
a descriptor with only the Digital offset (and default is_native) set. -/
theorem c5_probe_witness : parse 0 imgC5w = .ok { digital := 1 } := by
  have h := c5_probe_short_circuit 0 imgC5w (by decide) (by decide) (by decide)
  rw [h]
  decide

/-- Claim C6, counterexample: device id 0x15EE is present in the hardware
table (the BB device row, with zero ports), yet a host controller carrying it
still fails with UnsupportedController, contradicting the claim that the
error occurs only when the lookup finds no entry. -/
theorem c6_counterexample :
    hw_lookup 0x15EE = some ⟨0x15EE, 3, Family.bb, 0⟩ ∧
    parse 0 imgC6 = .error .unsupportedController := by decide

/-- Claim C6 (amended): parse fails with UnsupportedController iff the
controller claims is_host and the effective ports value after the hardware
lookup is 0 — a table miss, or a matched entry with zero ports (only the BB
device row).  A miss for a non-host controller is not an error and leaves
family Unknown, generation 0 and ports 0. -/
theorem c6_unsupported_controller (n : Nat) (img : Image) :
    (parse n img = .error .unsupportedController ↔
      ∃ d, stage_bootstrap n img = .ok d ∧ img.size ≠ 0x80 ∧
        ∃ t devid, read_location img d.digital 0x10 1 = .ok t ∧ t &&& 2 ≠ 0 ∧
          read_location img d.digital 0x5 2 = .ok devid ∧
          ident_ports d devid = 0) ∧
    (∀ D, parse n img = .ok D → hw_lookup D.device_id = none →
      D.family = .unknown ∧ D.gen = 0 ∧ D.ports = 0 ∧ D.is_host = false) := by
  constructor
  · constructor
    · intro h
      cases hb : stage_bootstrap n img with
      | error e =>
        have h' := (parse_bootstrap_error hb).symm.trans h
        injection h' with h2
        rcases stage_bootstrap_err hb with h3 | h3 <;>
          exact Err.noConfusion (h3.symm.trans h2)
      | ok d =>
        by_cases hsz : img.size = 0x80
        · exact Except.noConfusion ((parse_probe_eq hb hsz).symm.trans h)
        · have h' := (parse_stages_ne hb hsz).symm.trans h
          cases hi : stage_identity img d with
          | error e =>
            rw [hi] at h'
            have h'' : (Except.error e : Except Err Desc) =
                .error .unsupportedController := h'
            injection h'' with h2
            subst h2
            obtain ⟨t, devid, h1, h2, h3, h4⟩ :=
              stage_identity_unsupported_iff.mp hi
            exact ⟨d, rfl, hsz, t, devid, h1, by simpa using h4, h2, h3⟩
          | ok d1 =>
            rw [hi] at h'
            have hx : (match stage_sections img d1 with
                       | .error e => (Except.error e : Except Err Desc)
                       | .ok d6 => stage_fields img d6) =
                .error .unsupportedController := h'
            cases hs : stage_sections img d1 with
            | error e =>
              rw [hs] at hx
              have h'' : (Except.error e : Except Err Desc) =
                  .error .unsupportedController := hx
              injection h'' with h2
              rcases stage_sections_err hs with h3 | h3 | h3 <;>
                exact Err.noConfusion (h3.symm.trans h2)
            | ok d6 =>
              rw [hs] at hx
              have h'' : stage_fields img d6 = .error .unsupportedController := hx
              exact Err.noConfusion (stage_fields_err h'')
    · rintro ⟨d, hb, hsz, t, devid, h1, h2, h3, h4⟩
      rw [parse_stages_ne hb hsz]
      have hi : stage_identity img d = .error .unsupportedController :=
        stage_identity_unsupported_iff.mpr ⟨t, devid, h1, h3, h4, by simpa using h2⟩
      rw [hi]
  · intro D h hl
    cases hb : stage_bootstrap n img with
    | error e => exact Except.noConfusion ((parse_bootstrap_error hb).symm.trans h)
    | ok d =>
      obtain ⟨t0, farb, hb1, hb2, hb3⟩ := stage_bootstrap_ok_iff.mp hb
      by_cases hsz : img.size = 0x80
      · have h' := (parse_probe_eq hb hsz).symm.trans h
        injection h' with h2
        subst h2
        rw [hb3] at hl ⊢
        simp
      · have h' := (parse_stages_ne hb hsz).symm.trans h
        cases hi : stage_identity img d with
        | error e =>
          rw [hi] at h'
          exact Except.noConfusion
            (show (Except.error e : Except Err Desc) = .ok D from h')
        | ok d1 =>
          rw [hi] at h'
          have hx : (match stage_sections img d1 with
                     | .error e => (Except.error e : Except Err Desc)
                     | .ok d6 => stage_fields img d6) = .ok D := h'
          cases hs : stage_sections img d1 with
          | error e =>
            rw [hs] at hx
            exact Except.noConfusion
              (show (Except.error e : Except Err Desc) = .ok D from hx)
          | ok d6 =>
            rw [hs] at hx
            have hf : stage_fields img d6 = .ok D := hx
            obtain ⟨t, devid, hr1, hr2, hr3, hr4⟩ := stage_identity_ok_iff.mp hi
            obtain ⟨hrs, _⟩ := stage_sections_ok_iff.mp hs
            have hsp := read_sections_preserves hrs
            have hfp := stage_fields_spec hf
            have hdev : D.device_id = d1.device_id :=
              hfp.2.2.2.2.2.2.2.1.trans hsp.2.2.2.2.2.1
            have hfam : D.family = d1.family :=
              (hfp.2.2.2.2.1).trans hsp.2.1
            have hgen : D.gen = d1.gen :=
              (hfp.2.2.2.2.2.2.2.2.1).trans hsp.2.2.2.2.2.2.2.2.1
            have hports : D.ports = d1.ports :=
              (hfp.2.2.2.2.2.2.2.2.2.1).trans hsp.2.2.2.2.2.2.2.2.2.1
            have hhost : D.is_host = d1.is_host :=
              (hfp.2.2.2.2.2.1).trans hsp.2.2.1
            rw [hr4] at hdev hfam hgen hports hhost
            unfold ident_update at hdev hfam hgen hports hhost
            cases h5 : hw_lookup devid with
            | some info =>
              rw [h5] at hdev
              simp at hdev
              rw [hdev, h5] at hl
              exact Option.noConfusion hl
            | none =>
              rw [h5] at hfam hgen hports hhost
              simp at hfam hgen hports hhost
              rw [hb3] at hfam hgen hports
              simp at hfam hgen hports
              refine ⟨hfam, hgen, hports, ?_⟩
              by_cases hh2 : (t &&& 2 != 0) = true
              · exfalso
                apply hr3
                refine ⟨?_, hh2⟩
                unfold ident_ports
                rw [h5, hb3]
              · rw [hhost]
                simpa using hh2

/-- Claim C6, witness: the amended characterization applied to imgC6 yields
the UnsupportedController failure. -/
theorem c6_unsupported_witness : parse 0 imgC6 = .error .unsupportedController :=
  (c6_unsupported_controller 0 imgC6).1.mpr
    ⟨{ is_native := false, digital := 0x10 }, by decide, by decide, 0x02, 0x15EE,
     by decide, by decide, by decide, by decide⟩

/-- Claim C7: missing_needed_drom is true exactly when the Drom offset is
unresolved (0) and the controller is not a host with generation < 3; at parse
level, IncompleteSections is raised exactly when the post-section descriptor
satisfies it; and a host with generation < 3 and no Drom passes the check. -/
theorem c7_missing_drom :
    (∀ d : Desc, missing_needed_drom d = true ↔
      (d.drom = 0 ∧ ¬(d.is_host = true ∧ d.gen < 3))) ∧
    (∀ (n : Nat) (img : Image), parse n img = .error .incompleteSections ↔
      ∃ d d1 d6, stage_bootstrap n img = .ok d ∧ img.size ≠ 0x80 ∧
        stage_identity img d = .ok d1 ∧ read_sections img d1 = .ok d6 ∧
        missing_needed_drom d6 = true) ∧
    (∀ d : Desc, d.is_host = true → d.gen < 3 → missing_needed_drom d = false) := by
  have hpred : ∀ d : Desc, missing_needed_drom d = true ↔
      (d.drom = 0 ∧ ¬(d.is_host = true ∧ d.gen < 3)) := by
    intro d
    unfold missing_needed_drom
    split
    next h => simp [h]
    next h =>
      split
      next h2 => simp_all
      next h2 => simp_all
  refine ⟨hpred, ?_, ?_⟩
  · intro n img
    constructor
    · intro h
      cases hb : stage_bootstrap n img with
      | error e =>
        have h' := (parse_bootstrap_error hb).symm.trans h
        injection h' with h2
        rcases stage_bootstrap_err hb with h3 | h3 <;>
          exact Err.noConfusion (h3.symm.trans h2)
      | ok d =>
        by_cases hsz : img.size = 0x80
        · exact Except.noConfusion ((parse_probe_eq hb hsz).symm.trans h)
        · have h' := (parse_stages_ne hb hsz).symm.trans h
          cases hi : stage_identity img d with
          | error e =>
            rw [hi] at h'
            have h'' : (Except.error e : Except Err Desc) =
                .error .incompleteSections := h'
            injection h'' with h2
            rcases stage_identity_err hi with h3 | h3 <;>
              exact Err.noConfusion (h3.symm.trans h2)
          | ok d1 =>
            rw [hi] at h'
            have hx : (match stage_sections img d1 with
                       | .error e => (Except.error e : Except Err Desc)
                       | .ok d6 => stage_fields img d6) =
                .error .incompleteSections := h'
            cases hs : stage_sections img d1 with
            | error e =>
              rw [hs] at hx
              have h'' : (Except.error e : Except Err Desc) =
                  .error .incompleteSections := hx
              injection h'' with h2
              subst h2
              obtain ⟨d6, hs1, hs2⟩ := stage_sections_incomplete_iff.mp hs
              exact ⟨d, d1, d6, rfl, hsz, hi, hs1, hs2⟩
            | ok d6 =>
              rw [hs] at hx
              have h'' : stage_fields img d6 = .error .incompleteSections := hx
              exact Err.noConfusion (stage_fields_err h'')
    · rintro ⟨d, d1, d6, hb, hsz, hi, hs1, hs2⟩
      rw [parse_stages_ne hb hsz, hi]
      have hs : stage_sections img d1 = .error .incompleteSections :=
        stage_sections_incomplete_iff.mpr ⟨d6, hs1, hs2⟩
      show (match stage_sections img d1 with
            | .error e => (Except.error e : Except Err Desc)
            | .ok d6 => stage_fields img d6) = .error .incompleteSections
      rw [hs]
  · intro d h1 h2
    unfold missing_needed_drom
    split
    next h => rfl
    next h => rw [if_pos ⟨h1, h2⟩]

/-- Claim C7, witness: the predicate evaluated through the characterization
on concrete descriptors, and a concrete image failing with
IncompleteSections through the parse-level characterization. -/
theorem c7_missing_drom_witness :
    missing_needed_drom { } = true ∧
    missing_needed_drom { is_host := true, gen := 2 } = false ∧
    parse 0 imgC7 = .error .incompleteSections :=
  ⟨(c7_missing_drom.1 { }).mpr (by simp),
   c7_missing_drom.2.2 { is_host := true, gen := 2 } rfl (by decide),
   (c7_missing_drom.2.1 0 imgC7).mpr
     ⟨{ is_native := false, digital := 0x10 },
      { is_native := false, digital := 0x10 },
      { is_native := false, digital := 0x10, arcParams := 0x10 },
      by decide, by decide, by decide, by decide, by decide⟩⟩

/-- Claim C8: fail-fast atomicity.  The first failing stage's error is the
result of the whole parse (no descriptor is produced), and a returned
descriptor is exactly the output of the full stage pipeline: the bootstrap
descriptor for a 128-byte probe, otherwise the field stage's output after the
identity and section stages all succeeded. -/
theorem c8_fail_fast (n : Nat) (img : Image) :
    (∀ e, stage_bootstrap n img = .error e → parse n img = .error e) ∧
    (∀ d e, stage_bootstrap n img = .ok d → img.size ≠ 0x80 →
      stage_identity img d = .error e → parse n img = .error e) ∧
    (∀ d d1 e, stage_bootstrap n img = .ok d → img.size ≠ 0x80 →
      stage_identity img d = .ok d1 → stage_sections img d1 = .error e →
      parse n img = .error e) ∧
    (∀ d d1 d6 e, stage_bootstrap n img = .ok d → img.size ≠ 0x80 →
      stage_identity img d = .ok d1 → stage_sections img d1 = .ok d6 →
      stage_fields img d6 = .error e → parse n img = .error e) ∧
    (∀ D, parse n img = .ok D →
      ∃ d, stage_bootstrap n img = .ok d ∧
        ((img.size = 0x80 ∧ D = d) ∨
         (img.size ≠ 0x80 ∧ ∃ d1 d6, stage_identity img d = .ok d1 ∧
           stage_sections img d1 = .ok d6 ∧ stage_fields img d6 = .ok D))) := by
  refine ⟨?_, ?_, ?_, ?_, ?_⟩
  · intro e h
    exact parse_bootstrap_error h
  · intro d e hb hsz hi
    rw [parse_stages_ne hb hsz, hi]
  · intro d d1 e hb hsz hi hs
    rw [parse_stages_ne hb hsz, hi]
    have hx : (match stage_sections img d1 with
               | .error e => (Except.error e : Except Err Desc)
               | .ok d6 => stage_fields img d6) = .error e := by
      rw [hs]
    exact hx
  · intro d d1 d6 e hb hsz hi hs hf
    rw [parse_stages_ne hb hsz, hi]
    have hx : (match stage_sections img d1 with
               | .error e => (Except.error e : Except Err Desc)
               | .ok d6 => stage_fields img d6) = .error e := by
      rw [hs]
      exact hf
    exact hx
  · intro D h
    cases hb : stage_bootstrap n img with
    | error e => exact Except.noConfusion ((parse_bootstrap_error hb).symm.trans h)
    | ok d =>
      by_cases hsz : img.size = 0x80
      · have h' := (parse_probe_eq hb hsz).symm.trans h
        injection h' with h2
        exact ⟨d, rfl, Or.inl ⟨hsz, h2.symm⟩⟩
      · have h' := (parse_stages_ne hb hsz).symm.trans h
        cases hi : stage_identity img d with
        | error e =>
          rw [hi] at h'
          exact Except.noConfusion
            (show (Except.error e : Except Err Desc) = .ok D from h')
        | ok d1 =>
          rw [hi] at h'
          have hx : (match stage_sections img d1 with
                     | .error e => (Except.error e : Except Err Desc)
                     | .ok d6 => stage_fields img d6) = .ok D := h'
          cases hs : stage_sections img d1 with
          | error e =>
            rw [hs] at hx
            exact Except.noConfusion
              (show (Except.error e : Except Err Desc) = .ok D from hx)
          | ok d6 =>
            rw [hs] at hx
            exact ⟨d, rfl, Or.inr ⟨hsz, d1, d6, hi, hs, hx⟩⟩

/-- Claim C8, witness: on the empty image the very first read fails and the
whole parse returns exactly that OutOfBounds error. -/
theorem c8_fail_fast_witness : parse 0 imgC8 = .error .outOfBounds :=
  (c8_fail_fast 0 imgC8).1 .outOfBounds (by decide)

/-- Claim C9: has_pd is true iff the 32-bit PD pointer read at ArcParams+0x10C
is neither 0 nor 0xFFFFFFFF (false for both sentinels); the PD pointer is read
only when ArcParams is resolved, and has_pd keeps its default false when
ArcParams is unresolved, including in the full parse. -/
theorem c9_pd_detection :
    (∀ p : Nat, valid_pd_pointer p = true ↔ (p ≠ 0 ∧ p ≠ 0xFFFFFFFF)) ∧
    (valid_pd_pointer 0 = false ∧ valid_pd_pointer 0xFFFFFFFF = false) ∧
    (∀ (img : Image) (d d' : Desc), stage_fields img d = .ok d' →
      (d.arcParams = 0 → d'.has_pd = d.has_pd) ∧
      (d.arcParams ≠ 0 → ∃ p, read_location img d.arcParams 0x10C 4 = .ok p ∧
        (d'.has_pd = true ↔ (p ≠ 0 ∧ p ≠ 0xFFFFFFFF)))) ∧
    (∀ (n : Nat) (img : Image) (D : Desc), parse n img = .ok D →
      D.arcParams = 0 → D.has_pd = false) := by
  have hvalid : ∀ p : Nat, valid_pd_pointer p = true ↔ (p ≠ 0 ∧ p ≠ 0xFFFFFFFF) := by
    intro p
    unfold valid_pd_pointer
    simp [Bool.and_eq_true, bne_iff_ne]
  refine ⟨hvalid, by decide, ?_, ?_⟩
  · intro img d d' h
    have hsp := stage_fields_spec h
    refine ⟨hsp.2.2.2.2.2.2.2.2.2.2.1, ?_⟩
    intro hz
    obtain ⟨p, hp1, hp2⟩ := hsp.2.2.2.2.2.2.2.2.2.2.2 hz
    exact ⟨p, hp1, by rw [hp2]; exact hvalid p⟩
  · intro n img D h harc
    cases hb : stage_bootstrap n img with
    | error e => exact Except.noConfusion ((parse_bootstrap_error hb).symm.trans h)
    | ok d =>
      obtain ⟨t0, farb, hb1, hb2, hb3⟩ := stage_bootstrap_ok_iff.mp hb
      by_cases hsz : img.size = 0x80
      · have h' := (parse_probe_eq hb hsz).symm.trans h
        injection h' with h2
        subst h2
        rw [hb3]
      · have h' := (parse_stages_ne hb hsz).symm.trans h
        cases hi : stage_identity img d with
        | error e =>
          rw [hi] at h'
          exact Except.noConfusion
            (show (Except.error e : Except Err Desc) = .ok D from h')
        | ok d1 =>
          rw [hi] at h'
          have hx : (match stage_sections img d1 with
                     | .error e => (Except.error e : Except Err Desc)
                     | .ok d6 => stage_fields img d6) = .ok D := h'
          cases hs : stage_sections img d1 with
          | error e =>
            rw [hs] at hx
            exact Except.noConfusion
              (show (Except.error e : Except Err Desc) = .ok D from hx)
          | ok d6 =>
            rw [hs] at hx
            have hf : stage_fields img d6 = .ok D := hx
            have hfp := stage_fields_spec hf
            have harc6 : d6.arcParams = 0 := hfp.2.2.1.symm.trans harc
            have hpd : D.has_pd = d6.has_pd :=
              hfp.2.2.2.2.2.2.2.2.2.2.1 harc6
            obtain ⟨hrs, _⟩ := stage_sections_ok_iff.mp hs
            have hsp := read_sections_preserves hrs
            have hip := stage_identity_preserves hi
            rw [hpd, hsp.2.2.2.2.1, hip.2.2.2.2.2.1, hb3]

/-- Claim C9, witness: the sentinel test applied at 5; the field-stage
characterization applied on an all-zero image with resolved ArcParams (PD
pointer 0, has_pd false); and the parse-level default on a 128-byte probe. -/
theorem c9_pd_witness :
    valid_pd_pointer 5 = true ∧
    (∃ p, read_location imgC4 0x10 0x10C 4 = .ok p ∧
      (({ arcParams := 0x10 } : Desc).has_pd = true ↔ (p ≠ 0 ∧ p ≠ 0xFFFFFFFF))) ∧
    ({ digital := 1 } : Desc).has_pd = false :=
  ⟨(c9_pd_detection.1 5).mpr ⟨by decide, by decide⟩,
   ((c9_pd_detection.2.2.1 imgC4 { arcParams := 0x10 } { arcParams := 0x10 }
      (by decide)).2 (by decide)),
   c9_pd_detection.2.2.2 0 imgC5w { digital := 1 } (by decide) rfl⟩

/-- Claim C10: for any image shorter than 0x1003 bytes (with the native-flag
position inside it) whose 24-bit primary FARB pointer reads as 0 or 0xFFFFFF,
parse fails with OutOfBounds while attempting the 3-byte fallback read at
absolute 0x1000; in particular a 128-byte probe image with an invalid primary
pointer fails instead of reaching the 128-byte short-circuit. -/
theorem c10_short_image_fallback (n : Nat) (img : Image) (v : Nat)
    (hn : n + 1 ≤ img.size) (hsz : img.size < 0x1003)
    (h1 : read_location img 0 0x0 3 = .ok v) (hv : v = 0 ∨ v = 0xFFFFFF) :
    parse n img = .error .outOfBounds ∧
    read_location img 0 0x1000 3 = .error .outOfBounds := by
  have hfb : read_location img 0 0x1000 3 = .error .outOfBounds := by
    unfold read_location
    rw [if_neg (by
      unfold U32
      omega)]
  have hvf : ¬valid_farb_pointer v = true := by
    rcases hv with h | h <;> subst h <;> decide
  have hfarb : read_farb_pointer img = .error .outOfBounds := by
    unfold read_farb_pointer
    rw [h1]
    simp only []
    rw [if_neg hvf, hfb]
  have hb : stage_bootstrap n img = .error .outOfBounds := by
    unfold stage_bootstrap
    have hmod : (0 + n) % U32 = n := by
      unfold U32
      omega
    have hnr : read_location img 0 n 1 = .ok (leBytes img n 1) := by
      unfold read_location
      rw [hmod, if_pos hn]
    rw [hnr]
    simp only []
    rw [hfarb]
  exact ⟨parse_bootstrap_error hb, hfb⟩

/-- Claim C10, witness: a 128-byte image of 0xFF bytes (primary pointer
0xFFFFFF) fails with OutOfBounds instead of probing successfully. -/
theorem c10_short_image_witness : parse 0 imgC10 = .error .outOfBounds :=
  (c10_short_image_fallback 0 imgC10 0xFFFFFF (by decide) (by decide) (by decide)
    (Or.inr rfl)).1

end Thunderbolt
